import Mathlib

/-
Verification of the DOM-Clobbering rewriter core: a shallow embedding of
src/Rewriter/mocks.js and of the replacer module (operator tables, rewrite
rules), together with a model of the external taint substrate and of the
serialization helpers, both of which are absent from the repository snapshot
and are therefore modelled from the specification (spec.md, sections 3 and 6).
-/

namespace DomClob

/-- The fragment of JS values the mocks operate on: undefined, null, booleans,
integer numbers, NaN and strings.  Numbers are modelled as integers (every
value appearing in the specification scenarios is an integer). -/
inductive Prim where
  | undef
  | null
  | bool (b : Bool)
  | int (n : Int)
  | nan
  | str (s : String)
deriving DecidableEq, Repr

/-- Errors a mock can raise: a TypeError raised by the JS engine, or an
explicitly thrown string (mocks.js line 175 throws a plain string). -/
inductive JSError where
  | typeError
  | thrown (msg : String)
deriving DecidableEq, Repr

-- Except values over the embedded error and value types compare decidably.
deriving instance DecidableEq for Except

/-- Modelled from the spec: a runtime value is either a plain (raw, untainted)
value or a substrate-owned wrapped value pairing a provenance label with its
underlying raw value (spec section 3, ProvenanceLabel / wrapped value). -/
inductive Value where
  | raw (p : Prim)
  | tainted (name : String) (p : Prim)
deriving DecidableEq, Repr

/-- Modelled from the spec: isTainted(value) -> bool (spec section 6). -/
def isObjectTainted : Value → Bool
  | .raw _ => false
  | .tainted _ _ => true

/-- Modelled from the spec: unwrap(taintedValue) -> rawValue (spec section 6).
The mocks only invoke it on tainted values; on an untainted value it is
modelled as returning the underlying value itself. -/
def getWrappedObject : Value → Prim
  | .raw p => p
  | .tainted _ p => p

/-- Modelled from the spec: provenanceName(taintedValue) -> string (spec
section 6).  The contract defines it on tainted values only; looking up the
provenance of an untainted value finds no entry and yields undefined, which is
what the substrate registry returns for an unregistered value. -/
def getTaintedName : Value → Option String
  | .raw _ => none
  | .tainted n _ => some n

/-- Modelled from the spec: wrap(rawValue, provenanceLabel) -> taintedValue
(spec section 6). -/
def buildProxy (p : Prim) (name : String) : Value := .tainted name p

/-- JS string concatenation renders an undefined operand as the text
"undefined". -/
def optToJSString : Option String → String
  | some s => s
  | none => "undefined"

/-- The toString() method call performed by the binary mock on untainted
operands: it raises a TypeError on null and undefined and returns the usual
JS rendering otherwise. -/
def jsToStringMethod : Prim → Except JSError String
  | .undef => .error .typeError
  | .null => .error .typeError
  | .bool b => .ok (if b then "true" else "false")
  | .int n => .ok (toString n)
  | .nan => .ok "NaN"
  | .str s => .ok s

/-! Native operator semantics on the value fragment.  In the source these are
the closures built by new Function from the operator text; they are the JS
engine built-ins, reproduced here on the modelled fragment. -/

/-- JS ToBoolean on the fragment. -/
def toBool : Prim → Bool
  | .undef => false
  | .null => false
  | .bool b => b
  | .int n => n != 0
  | .nan => false
  | .str s => s != ""

/-- JS ToNumber on a string (none encodes NaN): empty or blank strings are 0,
decimal integer literals with an optional sign are numbers, anything else NaN. -/
def strToNum (s : String) : Option Int :=
  let t := s.trim
  if t = "" then some 0
  else if t.startsWith "-" then ((t.drop 1).toNat?).map (fun n => -(n : Int))
  else if t.startsWith "+" then ((t.drop 1).toNat?).map (fun n => (n : Int))
  else (t.toNat?).map (fun n => (n : Int))

/-- JS ToNumber on the fragment (none encodes NaN). -/
def toNumber : Prim → Option Int
  | .undef => none
  | .null => some 0
  | .bool b => some (if b then 1 else 0)
  | .int n => some n
  | .nan => none
  | .str s => strToNum s

/-- JS String conversion used by string concatenation. -/
def toJSString : Prim → String
  | .undef => "undefined"
  | .null => "null"
  | .bool b => if b then "true" else "false"
  | .int n => toString n
  | .nan => "NaN"
  | .str s => s

/-- Recognizes string values. -/
def isStrPrim : Prim → Bool
  | .str _ => true
  | _ => false

/-- JS addition on the fragment: string concatenation when either operand is a
string, numeric addition otherwise (NaN absorbing). -/
def jsPlus (x y : Prim) : Prim :=
  if isStrPrim x || isStrPrim y then .str (toJSString x ++ toJSString y)
  else match toNumber x, toNumber y with
    | some a, some b => .int (a + b)
    | _, _ => .nan

/-- The closure new Function builds for the + operator. -/
def jsPlusFn (x y : Prim) : Except JSError Prim := .ok (jsPlus x y)

/-- JS abstract equality (the == algorithm) on the fragment. -/
def jsEq : Prim → Prim → Bool
  | .undef, .undef => true
  | .undef, .null => true
  | .null, .undef => true
  | .null, .null => true
  | .undef, _ => false
  | _, .undef => false
  | .null, _ => false
  | _, .null => false
  | .str a, .str b => a == b
  | x, y =>
    match toNumber x, toNumber y with
    | some a, some b => a == b
    | _, _ => false

/-- The closure new Function builds for the == operator. -/
def jsEqFn (x y : Prim) : Except JSError Prim := .ok (.bool (jsEq x y))

/-- JS strict equality (===) on the fragment: same type and same value, with
NaN equal to nothing. -/
def jsStrictEq (x y : Prim) : Bool :=
  match x, y with
  | .nan, _ => false
  | _, .nan => false
  | x, y => x = y

/-- The closure new Function builds for the === operator. -/
def jsStrictEqFn (x y : Prim) : Except JSError Prim := .ok (.bool (jsStrictEq x y))

/-- The closure new Function builds for the ! operator. -/
def jsNotFn (x : Prim) : Except JSError Prim := .ok (.bool (!(toBool x)))

/-- Value of the JS expression ++ x: ToNumber of the operand plus one. -/
def jsPreIncValue (p : Prim) : Prim :=
  match toNumber p with
  | some n => .int (n + 1)
  | none => .nan

/-- The closure new Function builds for the ++ operator: the factory renders
the body return ++ x; so the mock always performs a PREFIX increment of its
local parameter (mocks.js line 41). -/
def jsIncOpFunc (p : Prim) : Except JSError Prim := .ok (jsPreIncValue p)

/-- Value of the native JS POSTFIX expression x++: the old numeric value of
the operand (the variable update itself is out of expression-value scope). -/
def jsPostIncValue (p : Prim) : Prim :=
  match toNumber p with
  | some n => .int n
  | none => .nan

/-- Value of the JS expression -- x. -/
def jsPreDecValue (p : Prim) : Prim :=
  match toNumber p with
  | some n => .int (n - 1)
  | none => .nan

/-- The closure new Function builds for the -- operator (prefix form, as
rendered by the factory). -/
def jsDecOpFunc (p : Prim) : Except JSError Prim := .ok (jsPreDecValue p)

/-- A stand-in native closure for the mocked eval function; the marker
theorems do not depend on its behavior. -/
def idNativeFn (p : Prim) : Except JSError Prim := .ok p

/-! Embedding of src/Rewriter/mocks.js.  Each factory of the source builds the
native closure opFunc from the operator text with new Function; here that
closure is a parameter standing for the native operator semantics.  A JS
function object can carry properties; the props field records the properties
set on the returned function (the source also marks the inner opFunc, whose
properties are not observable outside the factory and are not recorded). -/

/-- The property key used to distinguish mocked functions (mocks.js line 23). -/
def mockFunctionKey : String := "__is_mock_function__"

/-- A JS function value: its callable behavior plus the Bool-valued properties
set on the function object. -/
structure MockFun (α : Type) where
  call : α
  props : List (String × Bool)

/-- Embeds markAsMocked (mocks.js lines 25-27): sets the marker property. -/
def markAsMocked {α : Type} (f : MockFun α) : MockFun α :=
  { f with props := (mockFunctionKey, true) :: f.props }

/-- Embeds isMarkedAsMocked (mocks.js lines 29-31). -/
def isMarkedAsMocked {α : Type} (f : MockFun α) : Bool :=
  f.props.lookup mockFunctionKey == some true

/-- Embeds UnaryOperatorMockFactory (mocks.js lines 39-55).  Note the order in
the tainted branch: line 46 first reassigns obj to the unwrapped object and
line 47 only then reads getTaintedName from that already-unwrapped value. -/
def UnaryOperatorMockFactory (op : String) (opFunc : Prim → Except JSError Prim) :
    MockFun (Value → Except JSError Value) :=
  markAsMocked
    { call := fun obj =>
        if isObjectTainted obj = true then
          let obj := Value.raw (getWrappedObject obj)
          let name := op ++ "(" ++ optToJSString (getTaintedName obj) ++ ")"
          (opFunc (getWrappedObject obj)).map (fun r => buildProxy r name)
        else
          (opFunc (getWrappedObject obj)).map (fun r => Value.raw r)
      props := [] }

/-- Embeds BinaryOperatorMockFactory (mocks.js lines 63-95): the operand
representations are computed left then right (for a tainted operand its
provenance name, read before unwrapping; for an untainted one the text
value(...) built with a toString() method call), then the native closure is
applied to the unwrapped operands, and the result is wrapped with the label
op(leftName,rightName) exactly when at least one operand was tainted. -/
def BinaryOperatorMockFactory (op : String)
    (opFunc : Prim → Prim → Except JSError Prim) :
    MockFun (Value → Value → Except JSError Value) :=
  markAsMocked
    { call := fun left right =>
        let l := isObjectTainted left
        let r := isObjectTainted right
        do
          let leftName ←
            if l = true then pure (optToJSString (getTaintedName left))
            else Except.map (fun s => "value(" ++ s ++ ")") (jsToStringMethod (getWrappedObject left))
          let rightName ←
            if r = true then pure (optToJSString (getTaintedName right))
            else Except.map (fun s => "value(" ++ s ++ ")") (jsToStringMethod (getWrappedObject right))
          let res ← opFunc (getWrappedObject left) (getWrappedObject right)
          if l = true || r = true then
            pure (buildProxy res (op ++ "(" ++ leftName ++ "," ++ rightName ++ ")"))
          else
            pure (Value.raw res)
      props := [] }

/-- Embeds FunctionMockFactory (mocks.js lines 103-120): here the provenance
name is read before the operand is unwrapped (lines 112-113). -/
def FunctionMockFactory (funcName : String) (func : Prim → Except JSError Prim) :
    MockFun (Value → Except JSError Value) :=
  markAsMocked
    { call := fun obj =>
        if isObjectTainted obj = true then
          let name := funcName ++ "(" ++ optToJSString (getTaintedName obj) ++ ")"
          (func (getWrappedObject obj)).map (fun r => buildProxy r name)
        else
          (func (getWrappedObject obj)).map (fun r => Value.raw r)
      props := [] }

/-- Embeds EqualityOperatorMockFactory (mocks.js lines 130-146): tainted
operands are unwrapped, the native closure is applied, and the result is
returned untainted.  Unlike the other three factories, the returned function
is never passed to markAsMocked (only the inner opFunc is, line 132). -/
def EqualityOperatorMockFactory (op : String)
    (opFunc : Prim → Prim → Except JSError Prim) :
    MockFun (Value → Value → Except JSError Value) :=
  { call := fun left right =>
      (opFunc (getWrappedObject left) (getWrappedObject right)).map
        (fun r => Value.raw r)
    props := [] }

/-! Embedding of the replacer module: the operator name tables and the
operator classification predicates. -/

/-- The unary operator table (replacer module lines 29-37; unary plus and
minus are commented out in the source). -/
def unaryOperatorNames : List (String × String) :=
  [("~", "__bitwise_not__"),
   ("!", "__logical_not__"),
   ("typeof", "__typeof__"),
   ("++", "__increment__"),
   ("--", "__decrement__")]

/-- The binary operator table (replacer module lines 39-61); it contains the
four equality operators as well. -/
def binaryOperatorNames : List (String × String) :=
  [("==", "__double_equal__"),
   ("===", "__triple_equal__"),
   ("!=", "__double_inequal__"),
   ("!==", "__triple_inequal__"),
   ("+", "__plus__"),
   ("-", "__minus__"),
   ("*", "__multiply__"),
   ("/", "__divide__"),
   ("%", "__modulus__"),
   ("&", "__bitwise_and__"),
   ("|", "__bitwise_or__"),
   ("^", "__xor__"),
   (">>", "__shift_right__"),
   ("<<", "__shift_left__"),
   ("&&", "__logical_and__"),
   ("||", "__logical_or__"),
   (">", "__greater__"),
   ("<", "__lesser__"),
   (">=", "__greater_equal__"),
   ("<=", "__lesser_equal__")]

/-- The function name table (replacer module lines 63-65). -/
def functionNames : List (String × String) :=
  [("eval", "__eval__")]

/-- replacerNames (replacer module lines 74-78): function names first, then
unary, then binary, matching the copyObject insertion order. -/
def replacerNames : List (String × String) :=
  functionNames ++ unaryOperatorNames ++ binaryOperatorNames

/-- Embeds isUnaryOperator (replacer module lines 87-89). -/
def isUnaryOperator (op : String) : Bool :=
  (unaryOperatorNames.lookup op).isSome

/-- Embeds isBinaryOperator (replacer module lines 97-99). -/
def isBinaryOperator (op : String) : Bool :=
  (binaryOperatorNames.lookup op).isSome

/-- Embeds isFunction (replacer module lines 107-109). -/
def isFunction (func : String) : Bool :=
  (functionNames.lookup func).isSome

/-- mocks.js line 18 imports isEqualityOperator from the replacer module, but
the replacer module neither defines nor exports such a function, so the
imported binding is undefined; none models that undefined value. -/
def isEqualityOperator : Option (String → Bool) := none

/-! Embedding of mapMocksToObject (mocks.js lines 152-180).  The four factory
categories are the four mock factories above; the mapping records, for each
name of replacerNames, the key it is installed under (its replacement name)
and the factory category selected for it by the predicate table. -/

/-- The four factory categories of mocks.js lines 153-164. -/
inductive MockCategory where
  | unary
  | binary
  | equality
  | function
deriving DecidableEq, Repr

/-- The predicates table of mocks.js lines 153-158, in its key insertion
order; the equality entry holds the undefined imported binding. -/
def predicateTable : List (MockCategory × Option (String → Bool)) :=
  [(.unary, some isUnaryOperator),
   (.binary, some isBinaryOperator),
   (.equality, isEqualityOperator),
   (.function, some isFunction)]

/-- The inner factory-selection loop of mocks.js lines 166-173: the first
predicate returning true selects the category (break); invoking an entry that
holds no function value raises a TypeError. -/
def selectFactoryAux (name : String) :
    List (MockCategory × Option (String → Bool)) → Except JSError (Option MockCategory)
  | [] => .ok none
  | (c, some p) :: rest =>
    if p name then .ok (some c) else selectFactoryAux name rest
  | (_, none) :: _ => .error .typeError

/-- The category mapMocksToObject selects for a given name. -/
def selectFactory (name : String) : Except JSError (Option MockCategory) :=
  selectFactoryAux name predicateTable

/-- The main loop of mapMocksToObject over a list of (name, replacementName)
pairs: an unclassifiable name raises the thrown string of line 175, otherwise
the mock built by the selected factory is installed under the replacement
name. -/
def mapMocksAux : List (String × String) → Except JSError (List (String × MockCategory))
  | [] => .ok []
  | (name, repl) :: rest =>
    match selectFactory name with
    | .error e => .error e
    | .ok none => .error (.thrown ("Unknown type in mocks.mapMocksToObject" ++ name))
    | .ok (some c) => (mapMocksAux rest).map (fun l => (repl, c) :: l)

/-- Embeds mapMocksToObject (mocks.js lines 152-180): iterates the keys of
replacerNames in insertion order. -/
def mapMocksToObject : Except JSError (List (String × MockCategory)) :=
  mapMocksAux replacerNames

/-! Embedding of the code generation bridge (mocks.js lines 182-201). -/

/-- A generation-time failure of the code generation bridge. -/
inductive GenError where
  | noLiveDefinition (name : String)
deriving DecidableEq, Repr

/-- The requested function exports (mocks.js lines 187-195). -/
def funcImports : List String :=
  ["markAsMocked",
   "isMarkedAsMocked",
   "UnaryOperatorMockFactory",
   "BinaryOperatorMockFactory",
   "EqualityOperatorMockFactory",
   "FunctionMockFactory",
   "mapMocksToObject"]

/-- The property names present on the module-level this object (the CommonJS
exports object) at the moment the funcImports loop of lines 197-199 runs: the
seven functions are var-bound in module scope, so they are not properties of
this, and the exports assignments of lines 201-205 execute only after the
loop; hence no property has been set yet. -/
def moduleThisProps : List String := []

/-- The lookup this[i] performed at line 198, returning the live definition
when one is present on the module this object. -/
def moduleThisLookup (name : String) : Option String :=
  if moduleThisProps.contains name then some name else none

/-- Modelled from the spec: renderFunctionDefinition, named functionDefToCode
in the source, lives in the misc module, which is absent from src/.  Per spec
sections 4.3 and 7, a requested export lacking a live definition at generation
time is a fatal generation error; a live definition is rendered to its source
text. -/
def functionDefToCode : Option String → String → Except GenError String
  | some _, name => .ok ("<function definition " ++ name ++ ">")
  | none, name => .error (.noLiveDefinition name)

/-- Modelled from the spec: renderVariableBinding, named variableDefToCode in
the source, from the absent misc module: renders a live value as a variable
binding. -/
def variableDefToCode (value : String) (name : String) : Except GenError String :=
  .ok ("<binding " ++ name ++ " = " ++ value ++ ">")

/-- Embeds the importCode construction (mocks.js lines 184-199): the marker
variable binding first, then each requested function rendered from this[i]. -/
def importCode : Except GenError String := do
  let v ← variableDefToCode mockFunctionKey "mockFunctionKey"
  funcImports.foldlM
    (fun acc i => do
      let c ← functionDefToCode (moduleThisLookup i) i
      pure (acc ++ c))
    v

/-! Embedding of the ast node model and the replacer rule catalog (replacer
module lines 19-27 and 121-241).  The Syntax table of node kind strings is
embedded as the Syn constants. -/

namespace Syn

/-- Node kind string (replacer module line 20). -/
@[simp] def Identifier : String := "Identifier"

/-- Node kind string (replacer module line 22). -/
@[simp] def CallExpression : String := "CallExpression"

/-- Node kind string (replacer module line 23). -/
@[simp] def UnaryExpression : String := "UnaryExpression"

/-- Node kind string (replacer module line 24). -/
@[simp] def BinaryExpression : String := "BinaryExpression"

/-- Node kind string (replacer module line 25). -/
@[simp] def LogicalExpression : String := "LogicalExpression"

/-- Node kind string (replacer module line 26). -/
@[simp] def UpdateExpression : String := "UpdateExpression"

end Syn

/-- Esprima-style expression nodes, restricted to the kinds the rules inspect
plus literals.  The pre flag of updateExpr is the esprima prefix flag. -/
inductive Node where
  | ident (name : String)
  | lit (n : Int)
  | unaryExpr (op : String) (argument : Node)
  | updateExpr (op : String) (pre : Bool) (argument : Node)
  | binaryExpr (op : String) (left : Node) (right : Node)
  | logicalExpr (op : String) (left : Node) (right : Node)
  | callExpr (callee : Node) (arguments : List Node)
deriving Repr

/-- The node.type string of a node. -/
def nodeType : Node → String
  | .ident _ => Syn.Identifier
  | .lit _ => "Literal"
  | .unaryExpr _ _ => Syn.UnaryExpression
  | .updateExpr _ _ _ => Syn.UpdateExpression
  | .binaryExpr _ _ _ => Syn.BinaryExpression
  | .logicalExpr _ _ _ => Syn.LogicalExpression
  | .callExpr _ _ => Syn.CallExpression

/-- The node.operator field: present on unary, update, binary and logical
expressions, undefined elsewhere. -/
def nodeOperator : Node → Option String
  | .unaryExpr op _ => some op
  | .updateExpr op _ _ => some op
  | .binaryExpr op _ _ => some op
  | .logicalExpr op _ _ => some op
  | _ => none

/-- The node.callee.name field of a call expression: defined when the callee
is an identifier.  The rules read it only after checking the node kind. -/
def calleeName : Node → Option String
  | .callExpr (.ident s) _ => some s
  | _ => none

/-- A replacer object (replacer module lines 121-124). -/
structure Replacer where
  predicate : Node → Bool
  replace : Node → Node

/-- Embeds UnaryOperatorReplacerFactory (replacer module lines 135-153).  The
predicate body contains two return statements; the second (checking binary and
logical node kinds) is unreachable, because the first return always executes,
so the predicate is the first return expression.  The transform rewrites the
node in place into a call node whose single argument is the node argument. -/
def UnaryOperatorReplacerFactory (op opReplacerName : String) : Replacer :=
  { predicate := fun node =>
      (nodeType node == Syn.UnaryExpression || nodeType node == Syn.UpdateExpression)
        && nodeOperator node == some op
    replace := fun node =>
      match node with
      | .unaryExpr _ a => .callExpr (.ident opReplacerName) [a]
      | .updateExpr _ _ a => .callExpr (.ident opReplacerName) [a]
      | n => n }

/-- Embeds BinaryOperatorReplacerFactory (replacer module lines 163-180): the
transform turns the node into a call with arguments [left, right]. -/
def BinaryOperatorReplacerFactory (op opReplacerName : String) : Replacer :=
  { predicate := fun node =>
      (nodeType node == Syn.BinaryExpression || nodeType node == Syn.LogicalExpression)
        && nodeOperator node == some op
    replace := fun node =>
      match node with
      | .binaryExpr _ l r => .callExpr (.ident opReplacerName) [l, r]
      | .logicalExpr _ l r => .callExpr (.ident opReplacerName) [l, r]
      | n => n }

/-- Embeds FunctionReplacerFactory (replacer module lines 190-201): the
predicate checks the node kind and then the callee name; the transform renames
the callee identifier, leaving the arguments untouched. -/
def FunctionReplacerFactory (func funcReplacerName : String) : Replacer :=
  { predicate := fun node =>
      nodeType node == Syn.CallExpression && calleeName node == some func
    replace := fun node =>
      match node with
      | .callExpr (.ident _) args => .callExpr (.ident funcReplacerName) args
      | n => n }

/-- Embeds createAllReplacers (replacer module lines 205-232): one replacer
per table entry, unary names first, then binary, then function names. -/
def createAllReplacers : List Replacer :=
  (unaryOperatorNames.map fun p => UnaryOperatorReplacerFactory p.1 p.2) ++
  (binaryOperatorNames.map fun p => BinaryOperatorReplacerFactory p.1 p.2) ++
  (functionNames.map fun p => FunctionReplacerFactory p.1 p.2)

/-- The exported replacers array (replacer module line 236). -/
def replacers : List Replacer := createAllReplacers

/-- Modelled from the spec: the external tree-rewriting engine applies, at a
node, the transform of the rule whose predicate matches the node (spec
section 4.1; the rule sets are disjoint, so at most one predicate matches and
first-match application is the canonical order). -/
def applyReplacers (node : Node) : Node :=
  match replacers.find? (fun r => r.predicate node) with
  | some r => r.replace node
  | none => node

/-- Modelled from the spec: a single full application of the rule set over a
syntax tree (spec section 4.1); children are rewritten first, then the rules
are applied at the node. -/
def rewriteTree : Node → Node
  | .ident s => applyReplacers (.ident s)
  | .lit n => applyReplacers (.lit n)
  | .unaryExpr op a => applyReplacers (.unaryExpr op (rewriteTree a))
  | .updateExpr op pre a => applyReplacers (.updateExpr op pre (rewriteTree a))
  | .binaryExpr op l r => applyReplacers (.binaryExpr op (rewriteTree l) (rewriteTree r))
  | .logicalExpr op l r => applyReplacers (.logicalExpr op (rewriteTree l) (rewriteTree r))
  | .callExpr c args =>
    applyReplacers (.callExpr (rewriteTree c) (args.attach.map fun a => rewriteTree a.1))
termination_by n => sizeOf n
decreasing_by
  all_goals
    first
      | decreasing_tactic
      | (simp only [Node.callExpr.sizeOf_spec]; have := List.sizeOf_lt_of_mem a.2; omega)

/-- A node no rule predicate matches. -/
def cleanNode (n : Node) : Bool :=
  replacers.all fun r => !(r.predicate n)

/-- Every node of the tree, the root included, is matched by no rule. -/
def treeClean : Node → Bool
  | .ident s => cleanNode (.ident s)
  | .lit n => cleanNode (.lit n)
  | .unaryExpr op a => cleanNode (.unaryExpr op a) && treeClean a
  | .updateExpr op pre a => cleanNode (.updateExpr op pre a) && treeClean a
  | .binaryExpr op l r => cleanNode (.binaryExpr op l r) && (treeClean l && treeClean r)
  | .logicalExpr op l r => cleanNode (.logicalExpr op l r) && (treeClean l && treeClean r)
  | .callExpr c args =>
    cleanNode (.callExpr c args) && (treeClean c && args.attach.all fun a => treeClean a.1)
termination_by n => sizeOf n
decreasing_by
  all_goals
    first
      | decreasing_tactic
      | (simp only [Node.callExpr.sizeOf_spec]; have := List.sizeOf_lt_of_mem a.2; omega)

/-- The direct child nodes of a node. -/
def childrenOf : Node → List Node
  | .unaryExpr _ a => [a]
  | .updateExpr _ _ a => [a]
  | .binaryExpr _ l r => [l, r]
  | .logicalExpr _ l r => [l, r]
  | .callExpr c args => c :: args
  | _ => []


/-! Supporting lemmas about the rule catalog and the mocks. -/

/-- An all over an attached list equals the all over the list itself. -/
theorem all_attach {α : Type} (l : List α) (p : α → Bool) :
    (l.attach.all fun a => p a.1) = l.all p := by
  rw [Bool.eq_iff_iff, List.all_eq_true, List.all_eq_true]
  constructor
  · intro h x hx
    exact h ⟨x, hx⟩ (List.mem_attach l ⟨x, hx⟩)
  · intro h a _
    exact h a.1 a.2

/-- Mapping a pointwise-identity function over an attached list returns the
list. -/
theorem map_attach_eq_self {α : Type} (l : List α) (f : α → α)
    (h : ∀ a ∈ l, f a = a) : (l.attach.map fun a => f a.1) = l := by
  have h1 : (l.attach.map fun a => f a.1) = l.map f := by
    conv_rhs => rw [← List.attach_map_val l]
  rw [h1]
  have h2 : l.map f = l.map id := List.map_congr_left (by intro a ha; simp [h a ha])
  simp [h2]

/-- A bind returning an ok raw value is a map. -/
theorem except_bind_ok_raw (e : Except JSError Prim) :
    Except.bind e (fun r => Except.ok (Value.raw r)) = e.map Value.raw := by
  cases e <;> rfl

/-- Every element of the replacers array comes from one of the three
factories applied to an entry of its table. -/
theorem replacers_cases (r : Replacer) (hr : r ∈ replacers) :
    (∃ p ∈ unaryOperatorNames, r = UnaryOperatorReplacerFactory p.1 p.2) ∨
    (∃ p ∈ binaryOperatorNames, r = BinaryOperatorReplacerFactory p.1 p.2) ∨
    r = FunctionReplacerFactory "eval" "__eval__" := by
  simp only [replacers, createAllReplacers, List.mem_append, List.mem_map] at hr
  rcases hr with (⟨p, hp, h⟩ | ⟨p, hp, h⟩) | ⟨p, hp, h⟩
  · exact Or.inl ⟨p, hp, h.symm⟩
  · exact Or.inr (Or.inl ⟨p, hp, h.symm⟩)
  · right; right
    simp only [functionNames, List.mem_singleton] at hp
    rw [← h, hp]

/-- A call node whose callee identifier is not eval is matched by no rule. -/
theorem cleanNode_call_ident (nm : String) (args : List Node)
    (h : (nm == "eval") = false) : cleanNode (.callExpr (.ident nm) args) = true := by
  rw [cleanNode, List.all_eq_true]
  intro r hr
  rcases replacers_cases r hr with ⟨p, _, rfl⟩ | ⟨p, _, rfl⟩ | rfl
  · rfl
  · rfl
  · simp [FunctionReplacerFactory, nodeType, calleeName, h]

/-- A node matched by a unary rule is a unary or update expression carrying
the rule operator. -/
theorem unary_pred_shapes (op nm : String) (n : Node)
    (h : (UnaryOperatorReplacerFactory op nm).predicate n = true) :
    (∃ a, n = .unaryExpr op a) ∨ (∃ pre a, n = .updateExpr op pre a) := by
  cases n with
  | unaryExpr op2 a =>
    left
    refine ⟨a, ?_⟩
    simp [UnaryOperatorReplacerFactory, nodeType, nodeOperator] at h
    rw [h]
  | updateExpr op2 pre a =>
    right
    refine ⟨pre, a, ?_⟩
    simp [UnaryOperatorReplacerFactory, nodeType, nodeOperator] at h
    rw [h]
  | ident s => exact absurd h (by simp [UnaryOperatorReplacerFactory, nodeType])
  | lit k => exact absurd h (by simp [UnaryOperatorReplacerFactory, nodeType])
  | binaryExpr op2 l r => exact absurd h (by simp [UnaryOperatorReplacerFactory, nodeType])
  | logicalExpr op2 l r => exact absurd h (by simp [UnaryOperatorReplacerFactory, nodeType])
  | callExpr c a => exact absurd h (by simp [UnaryOperatorReplacerFactory, nodeType])

/-- A node matched by a binary rule is a binary or logical expression carrying
the rule operator. -/
theorem binary_pred_shapes (op nm : String) (n : Node)
    (h : (BinaryOperatorReplacerFactory op nm).predicate n = true) :
    (∃ l r, n = .binaryExpr op l r) ∨ (∃ l r, n = .logicalExpr op l r) := by
  cases n with
  | binaryExpr op2 l r =>
    left
    refine ⟨l, r, ?_⟩
    simp [BinaryOperatorReplacerFactory, nodeType, nodeOperator] at h
    rw [h]
  | logicalExpr op2 l r =>
    right
    refine ⟨l, r, ?_⟩
    simp [BinaryOperatorReplacerFactory, nodeType, nodeOperator] at h
    rw [h]
  | ident s => exact absurd h (by simp [BinaryOperatorReplacerFactory, nodeType])
  | lit k => exact absurd h (by simp [BinaryOperatorReplacerFactory, nodeType])
  | unaryExpr op2 a => exact absurd h (by simp [BinaryOperatorReplacerFactory, nodeType])
  | updateExpr op2 pre a => exact absurd h (by simp [BinaryOperatorReplacerFactory, nodeType])
  | callExpr c a => exact absurd h (by simp [BinaryOperatorReplacerFactory, nodeType])

/-- A node matched by the function rule is a call whose callee identifier is
eval. -/
theorem function_pred_shapes (n : Node)
    (h : (FunctionReplacerFactory "eval" "__eval__").predicate n = true) :
    ∃ args, n = .callExpr (.ident "eval") args := by
  cases n with
  | callExpr c args =>
    refine ⟨args, ?_⟩
    cases c <;> simp [FunctionReplacerFactory, nodeType, calleeName] at h
    case ident s => rw [h]
  | ident s => exact absurd h (by simp [FunctionReplacerFactory, nodeType])
  | lit k => exact absurd h (by simp [FunctionReplacerFactory, nodeType])
  | unaryExpr op2 a => exact absurd h (by simp [FunctionReplacerFactory, nodeType])
  | updateExpr op2 pre a => exact absurd h (by simp [FunctionReplacerFactory, nodeType])
  | binaryExpr op2 l r => exact absurd h (by simp [FunctionReplacerFactory, nodeType])
  | logicalExpr op2 l r => exact absurd h (by simp [FunctionReplacerFactory, nodeType])

/-- Applying the rules to a node no rule matches leaves it unchanged. -/
theorem applyReplacers_of_clean (n : Node) (h : cleanNode n = true) :
    applyReplacers n = n := by
  rw [applyReplacers]
  have hf : replacers.find? (fun r => r.predicate n) = none := by
    rw [List.find?_eq_none]
    intro r hr
    rw [cleanNode, List.all_eq_true] at h
    have h2 := h r hr
    simp only [Bool.not_eq_true'] at h2
    simp [h2]
  rw [hf]

/-- No unary replacement name is the string eval. -/
theorem unary_values_ne_eval : ∀ p ∈ unaryOperatorNames, (p.2 == "eval") = false := by decide

/-- No binary replacement name is the string eval. -/
theorem binary_values_ne_eval : ∀ p ∈ binaryOperatorNames, (p.2 == "eval") = false := by decide

/-- A call node with a non-eval callee identifier and clean arguments is a
clean tree. -/
theorem treeClean_call_ident (nm : String) (args : List Node)
    (hnm : (nm == "eval") = false) (hargs : ∀ a ∈ args, treeClean a = true) :
    treeClean (.callExpr (.ident nm) args) = true := by
  rw [treeClean, all_attach]
  rw [cleanNode_call_ident nm args hnm]
  simp only [Bool.true_and, Bool.and_eq_true]
  constructor
  · simp only [treeClean]
    rfl
  · exact List.all_eq_true.mpr hargs

/-- Applying the rules to a node whose children are clean trees produces a
clean tree: the transformed node is matched by no rule, including the rule
that produced it. -/
theorem treeClean_applyReplacers (n : Node)
    (hc : ∀ m ∈ childrenOf n, treeClean m = true) :
    treeClean (applyReplacers n) = true := by
  rw [applyReplacers]
  cases hfind : replacers.find? (fun r => r.predicate n) with
  | none =>
    have hclean : cleanNode n = true := by
      rw [cleanNode, List.all_eq_true]
      intro r hr
      have h2 := List.find?_eq_none.mp hfind r hr
      simp only [Bool.not_eq_true] at h2
      simp [h2]
    cases n with
    | ident s => simpa [treeClean] using hclean
    | lit k => simpa [treeClean] using hclean
    | unaryExpr op a =>
      rw [treeClean]
      simp [hclean, hc a (by simp [childrenOf])]
    | updateExpr op pre a =>
      rw [treeClean]
      simp [hclean, hc a (by simp [childrenOf])]
    | binaryExpr op l r =>
      rw [treeClean]
      simp [hclean, hc l (by simp [childrenOf]), hc r (by simp [childrenOf])]
    | logicalExpr op l r =>
      rw [treeClean]
      simp [hclean, hc l (by simp [childrenOf]), hc r (by simp [childrenOf])]
    | callExpr c args =>
      rw [treeClean, all_attach, hclean, hc c (by simp [childrenOf])]
      simp only [Bool.true_and]
      rw [List.all_eq_true]
      intro a ha
      exact hc a (by simp [childrenOf, ha])
  | some r =>
    have hmem := List.mem_of_find?_eq_some hfind
    have hp : r.predicate n = true := by
      have h2 := List.find?_some hfind
      simpa using h2
    rcases replacers_cases r hmem with ⟨p, hpmem, rfl⟩ | ⟨p, hpmem, rfl⟩ | rfl
    · rcases unary_pred_shapes p.1 p.2 n hp with ⟨a, rfl⟩ | ⟨pre, a, rfl⟩
      · exact treeClean_call_ident p.2 [a] (unary_values_ne_eval p hpmem)
          (by intro m hm; simp only [List.mem_singleton] at hm; subst hm
              exact hc _ (by simp [childrenOf]))
      · exact treeClean_call_ident p.2 [a] (unary_values_ne_eval p hpmem)
          (by intro m hm; simp only [List.mem_singleton] at hm; subst hm
              exact hc _ (by simp [childrenOf]))
    · rcases binary_pred_shapes p.1 p.2 n hp with ⟨x, y, rfl⟩ | ⟨x, y, rfl⟩
      · exact treeClean_call_ident p.2 [x, y] (binary_values_ne_eval p hpmem)
          (by intro m hm; simp only [List.mem_cons, List.mem_singleton, List.not_mem_nil, or_false] at hm
              rcases hm with rfl | rfl
              · exact hc _ (by simp [childrenOf])
              · exact hc _ (by simp [childrenOf]))
      · exact treeClean_call_ident p.2 [x, y] (binary_values_ne_eval p hpmem)
          (by intro m hm; simp only [List.mem_cons, List.mem_singleton, List.not_mem_nil, or_false] at hm
              rcases hm with rfl | rfl
              · exact hc _ (by simp [childrenOf])
              · exact hc _ (by simp [childrenOf]))
    · rcases function_pred_shapes n hp with ⟨args, rfl⟩
      exact treeClean_call_ident "__eval__" args (by decide)
        (by intro m hm; exact hc m (by simp [childrenOf, hm]))

/-- A fully rewritten tree is clean: no rule matches any of its nodes. -/
theorem treeClean_rewriteTree (t : Node) : treeClean (rewriteTree t) = true := by
  induction t using rewriteTree.induct with
  | case1 s =>
    rw [rewriteTree]
    exact treeClean_applyReplacers _ (by intro m hm; simp [childrenOf] at hm)
  | case2 k =>
    rw [rewriteTree]
    exact treeClean_applyReplacers _ (by intro m hm; simp [childrenOf] at hm)
  | case3 op a ih =>
    rw [rewriteTree]
    refine treeClean_applyReplacers _ ?_
    intro m hm
    simp only [childrenOf, List.mem_singleton] at hm
    rw [hm]
    exact ih
  | case4 op pre a ih =>
    rw [rewriteTree]
    refine treeClean_applyReplacers _ ?_
    intro m hm
    simp only [childrenOf, List.mem_singleton] at hm
    rw [hm]
    exact ih
  | case5 op l r ihl ihr =>
    rw [rewriteTree]
    refine treeClean_applyReplacers _ ?_
    intro m hm
    simp only [childrenOf, List.mem_cons, List.not_mem_nil, or_false] at hm
    rcases hm with rfl | rfl
    · exact ihl
    · exact ihr
  | case6 op l r ihl ihr =>
    rw [rewriteTree]
    refine treeClean_applyReplacers _ ?_
    intro m hm
    simp only [childrenOf, List.mem_cons, List.not_mem_nil, or_false] at hm
    rcases hm with rfl | rfl
    · exact ihl
    · exact ihr
  | case7 c args ihc ihargs =>
    rw [rewriteTree]
    refine treeClean_applyReplacers _ ?_
    intro m hm
    simp only [childrenOf, List.mem_cons, List.mem_map] at hm
    rcases hm with rfl | ⟨a, _, rfl⟩
    · exact ihc
    · exact ihargs a

/-- Rewriting a clean tree changes nothing. -/
theorem rewriteTree_of_clean : ∀ t : Node, treeClean t = true → rewriteTree t = t := by
  intro t
  induction t using rewriteTree.induct with
  | case1 s =>
    intro h
    rw [treeClean] at h
    rw [rewriteTree]
    exact applyReplacers_of_clean _ h
  | case2 k =>
    intro h
    rw [treeClean] at h
    rw [rewriteTree]
    exact applyReplacers_of_clean _ h
  | case3 op a ih =>
    intro h
    rw [treeClean, Bool.and_eq_true] at h
    rw [rewriteTree, ih h.2]
    exact applyReplacers_of_clean _ h.1
  | case4 op pre a ih =>
    intro h
    rw [treeClean, Bool.and_eq_true] at h
    rw [rewriteTree, ih h.2]
    exact applyReplacers_of_clean _ h.1
  | case5 op l r ihl ihr =>
    intro h
    rw [treeClean, Bool.and_eq_true, Bool.and_eq_true] at h
    rw [rewriteTree, ihl h.2.1, ihr h.2.2]
    exact applyReplacers_of_clean _ h.1
  | case6 op l r ihl ihr =>
    intro h
    rw [treeClean, Bool.and_eq_true, Bool.and_eq_true] at h
    rw [rewriteTree, ihl h.2.1, ihr h.2.2]
    exact applyReplacers_of_clean _ h.1
  | case7 c args ihc ihargs =>
    intro h
    rw [treeClean, Bool.and_eq_true, Bool.and_eq_true, all_attach, List.all_eq_true] at h
    rw [rewriteTree, ihc h.2.1,
      map_attach_eq_self args rewriteTree (fun a ha => ihargs ⟨a, ha⟩ (h.2.2 a ha))]
    exact applyReplacers_of_clean _ h.1


/-! The claims. -/

/-- C1: the claim says the mock installed under each equality operator
replacement name never returns a tainted value and computes native equality of
the unwrapped operands.  On the code this fails: mapMocksToObject aborts with
a TypeError before installing anything (the imported equality predicate is
undefined), and its classification logic assigns every equality operator the
binary category, because isBinaryOperator matches them first, so the mock that
would be installed is the binary one, which wraps its result as tainted when
an operand is tainted.  The equality factory itself, which is never selected,
does satisfy the property, as the last conjunct shows. -/
theorem equality_mock_never_installed :
    mapMocksToObject = .error .typeError ∧
    selectFactory "==" = .ok (some .binary) ∧
    selectFactory "===" = .ok (some .binary) ∧
    selectFactory "!=" = .ok (some .binary) ∧
    selectFactory "!==" = .ok (some .binary) ∧
    (BinaryOperatorMockFactory "==" jsEqFn).call
        (.tainted "a" (.int 1)) (.tainted "b" (.int 1)) =
      .ok (.tainted "==(a,b)" (.bool true)) ∧
    isObjectTainted (.tainted "==(a,b)" (.bool true)) = true ∧
    (EqualityOperatorMockFactory "==" jsEqFn).call
        (.tainted "a" (.int 1)) (.tainted "b" (.int 1)) =
      .ok (.raw (.bool true)) :=
  ⟨rfl, rfl, rfl, rfl, rfl, rfl, rfl, rfl⟩

/-- C2: the claim says mapMocksToObject completes without error, classifying
every symbol and installing one mock per replacement name.  On the code it
throws instead: the replacer module does not define isEqualityOperator, so the
equality entry of the predicate table is undefined, and calling it for the
first iterated name, eval, which is neither unary nor binary, raises a
TypeError before any mock is installed. -/
theorem mapMocksToObject_raises_type_error :
    isEqualityOperator = none ∧
    selectFactory "eval" = .error .typeError ∧
    mapMocksToObject = .error .typeError :=
  ⟨rfl, rfl, rfl⟩

/-- C3 counterexample: for the untainted operands null and 2 under +, the
binary mock raises a TypeError, raised while building the value(...) operand
representation with a toString() method call on null, although the native
operator returns 2 without error, so the mock result differs from the
unwrapped native result. -/
theorem binary_mock_throws_on_null_operand :
    (BinaryOperatorMockFactory "+" jsPlusFn).call (.raw .null) (.raw (.int 2)) =
      .error .typeError ∧
    jsPlusFn .null (.int 2) = .ok (.int 2) ∧
    (BinaryOperatorMockFactory "+" jsPlusFn).call (.raw .null) (.raw (.int 2)) ≠
      (jsPlusFn .null (.int 2)).map Value.raw :=
  ⟨rfl, rfl, by decide⟩

/-- C3 amended: for every binary operator and all untainted operands on which
the toString method is defined, that is, operands that are neither null nor
undefined, the mock returns exactly the native result, unwrapped, with no
taint wrapper, and propagates exactly the errors the native closure raises. -/
theorem binary_mock_untainted_equals_native (op : String)
    (opFunc : Prim → Prim → Except JSError Prim) (a b : Prim)
    (ha1 : a ≠ .null) (ha2 : a ≠ .undef) (hb1 : b ≠ .null) (hb2 : b ≠ .undef) :
    (BinaryOperatorMockFactory op opFunc).call (.raw a) (.raw b) =
      (opFunc a b).map Value.raw := by
  cases a <;> cases b <;>
    first
      | exact absurd rfl ha1
      | exact absurd rfl ha2
      | exact absurd rfl hb1
      | exact absurd rfl hb2
      | simp [BinaryOperatorMockFactory, markAsMocked, isObjectTainted, getWrappedObject,
          jsToStringMethod, Except.map, bind, Except.bind, pure, Except.pure,
          except_bind_ok_raw]

/-- C3 witness: the amended equivalence at the untainted integers 3 and 4
under the native addition closure. -/
theorem binary_mock_untainted_equals_native_witness :
    (BinaryOperatorMockFactory "+" jsPlusFn).call (.raw (.int 3)) (.raw (.int 4)) =
      (jsPlusFn (.int 3) (.int 4)).map Value.raw :=
  binary_mock_untainted_equals_native "+" jsPlusFn (.int 3) (.int 4)
    (by decide) (by decide) (by decide) (by decide)

/-- C4: the claim says the unary mock wraps the native result with provenance
exactly op(P); in particular the logical-not mock on a value tainted base with
raw value true should yield a tainted false with provenance !(base).  On the
code the tainted branch first reassigns the operand to its unwrapped raw value
and only then reads the provenance name from that already-unwrapped value, so
the lookup yields undefined and the label rendered by string concatenation is
!(undefined), not !(base). -/
theorem unary_mock_reads_provenance_after_unwrap :
    (UnaryOperatorMockFactory "!" jsNotFn).call (.tainted "base" (.bool true)) =
      .ok (.tainted "!(undefined)" (.bool false)) ∧
    (UnaryOperatorMockFactory "!" jsNotFn).call (.tainted "base" (.bool true)) ≠
      .ok (.tainted "!(base)" (.bool false)) ∧
    getTaintedName (.raw (.bool true)) = none :=
  ⟨rfl, by decide, rfl⟩

/-- C5: for every binary operator, when exactly one operand is tainted the
mock result is tainted with the label op(leftRepr,rightRepr) built in
left-then-right order, the tainted side contributing its provenance name, read
before unwrapping, and the untainted side contributing value(stringForm). -/
theorem binary_mock_single_taint_provenance (op : String)
    (opFunc : Prim → Prim → Except JSError Prim)
    (P : String) (v b : Prim) (s : String) (rl rr : Prim)
    (hs : jsToStringMethod b = .ok s)
    (h1 : opFunc v b = .ok rl)
    (h2 : opFunc b v = .ok rr) :
    (BinaryOperatorMockFactory op opFunc).call (.tainted P v) (.raw b) =
      .ok (.tainted (op ++ "(" ++ P ++ "," ++ ("value(" ++ s ++ ")") ++ ")") rl) ∧
    (BinaryOperatorMockFactory op opFunc).call (.raw b) (.tainted P v) =
      .ok (.tainted (op ++ "(" ++ ("value(" ++ s ++ ")") ++ "," ++ P ++ ")") rr) := by
  constructor
  · simp [BinaryOperatorMockFactory, markAsMocked, isObjectTainted, getTaintedName,
      getWrappedObject, buildProxy, optToJSString, hs, h1, Except.map, bind, Except.bind,
      pure, Except.pure, String.append_assoc]
  · have hx : ∀ t : String, (")" : String) ++ ("," ++ t) = ")," ++ t := by
      intro t
      rw [← String.append_assoc]
      rfl
    simp [BinaryOperatorMockFactory, markAsMocked, isObjectTainted, getTaintedName,
      getWrappedObject, buildProxy, optToJSString, hs, h2, Except.map, bind, Except.bind,
      pure, Except.pure, String.append_assoc, hx]

/-- C5 witness: the scenario of the spec, a left operand tainted src with raw
value 5 and an untainted right operand 2 under +, gives a tainted 7 labelled
+(src,value(2)), and symmetrically on the right. -/
theorem binary_mock_single_taint_provenance_witness :
    (BinaryOperatorMockFactory "+" jsPlusFn).call (.tainted "src" (.int 5)) (.raw (.int 2)) =
      .ok (.tainted ("+" ++ "(" ++ "src" ++ "," ++ ("value(" ++ "2" ++ ")") ++ ")") (.int 7)) ∧
    (BinaryOperatorMockFactory "+" jsPlusFn).call (.raw (.int 2)) (.tainted "src" (.int 5)) =
      .ok (.tainted ("+" ++ "(" ++ ("value(" ++ "2" ++ ")") ++ "," ++ "src" ++ ")") (.int 7)) :=
  binary_mock_single_taint_provenance "+" jsPlusFn "src" (.int 5) (.int 2) "2"
    (.int 7) (.int 7) rfl rfl rfl

/-- C6: rewriting is stable: every node of a fully rewritten tree, including
every node produced by any rule transform, is matched by no rule predicate,
and applying the full rule set again to the rewritten tree changes nothing. -/
theorem rewrite_rules_stable (t : Node) :
    treeClean (rewriteTree t) = true ∧
    rewriteTree (rewriteTree t) = rewriteTree t :=
  ⟨treeClean_rewriteTree t, rewriteTree_of_clean _ (treeClean_rewriteTree t)⟩

/-- C7: a unary rule predicate matches a node exactly when the node is a
UnaryExpression or UpdateExpression whose operator equals the rule symbol, the
node kind being checked before the symbol, and it never matches a
BinaryExpression or LogicalExpression, whatever the operator: the second
return statement of the source predicate, which would match those kinds, is
unreachable. -/
theorem unary_rule_predicate_characterization (op nm : String) (n : Node) :
    ((UnaryOperatorReplacerFactory op nm).predicate n = true ↔
      ((∃ a, n = Node.unaryExpr op a) ∨ ∃ pre a, n = Node.updateExpr op pre a)) ∧
    ∀ op2 l r,
      (UnaryOperatorReplacerFactory op nm).predicate (Node.binaryExpr op2 l r) = false ∧
      (UnaryOperatorReplacerFactory op nm).predicate (Node.logicalExpr op2 l r) = false := by
  refine ⟨⟨unary_pred_shapes op nm n, ?_⟩, fun op2 l r => ⟨rfl, rfl⟩⟩
  rintro (⟨a, rfl⟩ | ⟨pre, a, rfl⟩) <;>
    simp [UnaryOperatorReplacerFactory, nodeType, nodeOperator]

/-- C8: the claim says every factory marks its returned mock.  The unary,
binary and function factories do, but the equality factory returns its mock
without passing it to markAsMocked, only its inner native closure is marked,
so isMarkedAsMocked is false on the returned function, for every operator and
native closure. -/
theorem equality_factory_result_unmarked (op nm : String)
    (f : Prim → Except JSError Prim) (g : Prim → Prim → Except JSError Prim) :
    isMarkedAsMocked (UnaryOperatorMockFactory op f) = true ∧
    isMarkedAsMocked (BinaryOperatorMockFactory op g) = true ∧
    isMarkedAsMocked (FunctionMockFactory nm f) = true ∧
    isMarkedAsMocked (EqualityOperatorMockFactory op g) = false :=
  ⟨rfl, rfl, rfl, rfl⟩

/-- C9 counterexample: the rewriter maps the postfix update x++ to the call
__increment__(x), and on the untainted value 5 that mock returns 6, because
the factory renders the prefix expression return ++ x, whereas the native
postfix expression evaluates to the old value 5. -/
theorem postfix_increment_mock_counterexample :
    rewriteTree (Node.updateExpr "++" false (Node.ident "x")) =
      Node.callExpr (Node.ident "__increment__") [Node.ident "x"] ∧
    (UnaryOperatorMockFactory "++" jsIncOpFunc).call (.raw (.int 5)) =
      .ok (.raw (.int 6)) ∧
    jsPostIncValue (.int 5) = .int 5 ∧
    (UnaryOperatorMockFactory "++" jsIncOpFunc).call (.raw (.int 5)) ≠
      .ok (.raw (jsPostIncValue (.int 5))) := by
  refine ⟨?_, rfl, rfl, by decide⟩
  simp only [rewriteTree]
  rfl

/-- C9 amended: both the prefix and the postfix update expressions are
rewritten to the same replacement call, and on every untainted value the
increment and decrement mocks return, untainted and without error, the value
of the native PREFIX operator, the incremented or decremented value; the
postfix form therefore also yields the incremented value, and the operand
variable is never mutated, since the mock receives it by value. -/
theorem update_mock_prefix_increment_equivalence (v : Prim) :
    rewriteTree (Node.updateExpr "++" true (Node.ident "x")) =
      Node.callExpr (Node.ident "__increment__") [Node.ident "x"] ∧
    rewriteTree (Node.updateExpr "++" false (Node.ident "x")) =
      Node.callExpr (Node.ident "__increment__") [Node.ident "x"] ∧
    (UnaryOperatorMockFactory "++" jsIncOpFunc).call (.raw v) =
      .ok (.raw (jsPreIncValue v)) ∧
    (UnaryOperatorMockFactory "--" jsDecOpFunc).call (.raw v) =
      .ok (.raw (jsPreDecValue v)) := by
  refine ⟨?_, ?_, rfl, rfl⟩ <;> (simp only [rewriteTree]; rfl)

/-- C10: the claim says every requested export has a live definition when the
code generation bridge renders it.  On the code none does: the loop reads
this[i], but the seven functions are var-bound in module scope, not properties
of the module this object, and the exports assignments run only after the
loop, so the first lookup, markAsMocked, already finds no live definition and
generation is a fatal error under the spec-modelled renderer. -/
theorem importCode_generation_fatal :
    moduleThisLookup "markAsMocked" = none ∧
    importCode = .error (.noLiveDefinition "markAsMocked") :=
  ⟨rfl, rfl⟩

end DomClob
